import Mathlib

/-!
Verification of the `aioquiklua` asynchronous Quik Lua RPC client.

This file gives a shallow embedding, in Lean, of the parts of the library
that the specification's claims are about:

* `socket_pool.py` — `ZMQSocketPoolAsync`: `stats`, `send_receive`,
  `rpc_call` (the lazy-pirate retry loop), `_acquire_socket`,
  `_close_socket`, `_init_socket`;
* `cache.py` — `ParamWatcher` (a pandas `DataFrame` keyed by row label),
  `ParamCache.process_param`, `HistoryCache.process_history`,
  `HistoryCache.can_update`;
* `client.py` — `QuikLuaClientBase.__init__`, `params_unsubscribe`,
  `shutdown`, and the candle-walk tail of `get_price_history`.

Conventions of the embedding:

* Python exceptions become `Except PyExc`; each Python exception class is a
  `PyExc` constructor carrying its message.
* Effectful methods become pure state-transition functions; nondeterministic
  network input (ZMQ poll outcomes, replies) is passed in explicitly.
* Python floats (wall-clock seconds, roundtrip times, parameter values) are
  modelled as exact rationals `Rat`; `float('nan')` is a dedicated
  constructor where it matters (`PValue.nanV`).
* Python dicts keyed by tuples/strings are association lists; a pandas
  `DataFrame` is modelled with both its row index and its column labels,
  because `del df[k]` operates on columns while `.at[k, c]` operates on rows.
-/

/-- Python exception taxonomy used by the library (`errors.py` plus the
built-in Python exceptions the code can raise). -/
inductive PyExc where
  | quikLua (msg : String)
  | quikLuaConnection (msg : String)
  | quikLuaNoHistory (msg : String)
  | assertionError (msg : String)
  | valueError (msg : String)
  | keyError (msg : String)
  | indexError (msg : String)
deriving DecidableEq, Repr

/-- Does an `Except` carry `QuikLuaConnectionException`? -/
def errIsConnection {α : Type} : Except PyExc α → Bool
  | .error (.quikLuaConnection _) => true
  | _ => false

/-- Does an `Except` carry the generic `QuikLuaException` (the base class
raised directly, not one of its subclasses)? -/
def errIsGeneric {α : Type} : Except PyExc α → Bool
  | .error (.quikLua _) => true
  | _ => false

/-!
## Socket pool (`socket_pool.py`, `ZMQSocketPoolAsync`)

`rpc_call` acquires one slot under a semaphore and then runs the lazy-pirate
loop on that single slot; the embedding therefore models the one acquired
slot (`slotSock`), the statistics counters, and the log of sockets closed
with zero linger.  The network is an explicit stream of per-attempt
outcomes.
-/

/-- The `response['result']` object of a reply: its `is_error` flag
(`.get('is_error')` truthiness) and an opaque payload. -/
structure RpcResult where
  isErr : Bool
  payload : String
deriving DecidableEq, Repr

/-- A decoded JSON reply: `result` models the optional `'result'` key. -/
structure Reply where
  result : Option RpcResult
deriving DecidableEq, Repr

/-- Outcome of one `socket.poll` in `send_receive`: either the poll signals
readability and a reply (with its measured roundtrip) is read, or the poll
times out. -/
inductive NetOutcome where
  | reply (rep : Reply) (duration : Rat)
  | timeout
deriving DecidableEq

/-- Outcome of one attempt inside `rpc_call`: the executor either completes
`send_receive` with a network outcome or raises `zmq.ZMQError`. -/
inductive AttemptOutcome where
  | net (o : NetOutcome)
  | zmqErr
deriving DecidableEq

/-- Statistics counters of `ZMQSocketPoolAsync`. -/
structure PoolStats where
  rpcErrors : Nat
  socketErrors : Nat
  rpcCalls : List (String × Nat)
  rpcTotalTime : Rat
  rpcTotalCount : Nat
deriving DecidableEq, Repr

/-- State of the pool visible to one `rpc_call`: counters, the acquired
slot's socket (`None` or a socket identified by a creation-order id), the
next fresh socket id, the slot's in-use flag, and the ids of sockets closed
with `LINGER = 0`. -/
structure PoolState where
  stats : PoolStats
  slotSock : Option Nat
  nextSockId : Nat
  slotInUse : Bool
  closedLinger0 : List Nat
deriving DecidableEq, Repr

/-- `_init_socket`: create a fresh socket and store it in the slot. -/
def initSocket (st : PoolState) : PoolState :=
  { st with slotSock := some st.nextSockId, nextSockId := st.nextSockId + 1 }

/-- `_close_socket`: if the slot holds a socket, set `LINGER = 0`, close it
(recorded in `closedLinger0`), then clear the slot. -/
def closeSocket (st : PoolState) : PoolState :=
  match st.slotSock with
  | some sid => { st with closedLinger0 := st.closedLinger0 ++ [sid], slotSock := none }
  | none => { st with slotSock := none }

/-- `_acquire_socket`, specialised to the one free slot the semaphore
guarantees: create the socket if absent and mark the slot in use. -/
def acquireSocket (st : PoolState) : PoolState :=
  match st.slotSock with
  | some _ => { st with slotInUse := true }
  | none => { (initSocket st) with slotInUse := true }

/-- `_release_socket`: clear the in-use mark. -/
def releaseSlot (st : PoolState) : PoolState :=
  { st with slotInUse := false }

/-- `self._stats_rpc_calls[rpc_func] += 1` on a `defaultdict(int)`. -/
def bumpCall (calls : List (String × Nat)) (f : String) : List (String × Nat) :=
  match calls with
  | [] => [(f, 1)]
  | (g, n) :: t => if g = f then (g, n + 1) :: t else (g, n) :: bumpCall t f

/-- `send_receive`: on poll readability decode the reply, count the
roundtrip, and return `(True, result)` exactly when the reply has a
`result` field whose `is_error` is falsy; otherwise bump the RPC-error
counter and raise `QuikLuaException`.  On poll timeout return
`(False, None)` (modelled as `.ok none`). -/
def sendReceive (st : PoolState) (req : String) (o : NetOutcome) :
    PoolState × Except PyExc (Option RpcResult) :=
  match o with
  | .timeout => (st, .ok none)
  | .reply rep dur =>
    let st1 := { st with stats := { st.stats with
      rpcTotalCount := st.stats.rpcTotalCount + 1,
      rpcTotalTime := st.stats.rpcTotalTime + dur } }
    match rep.result with
    | some res =>
      if res.isErr then
        ({ st1 with stats := { st1.stats with rpcErrors := st1.stats.rpcErrors + 1 } },
          .error (.quikLua (req ++ " error")))
      else
        (st1, .ok (some res))
    | none =>
      ({ st1 with stats := { st1.stats with rpcErrors := st1.stats.rpcErrors + 1 } },
        .error (.quikLua (req ++ " error")))

/-- One attempt of the `rpc_call` loop: bump the per-method call counter,
then run `send_receive` on the executor; a raised `zmq.ZMQError` is caught
and turned into the same `(False, None)` as a poll timeout. -/
def rpcAttempt (rpcFunc : String) (outcomes : Nat → AttemptOutcome) (i : Nat)
    (st : PoolState) : PoolState × Except PyExc (Option RpcResult) :=
  let st0 := { st with stats := { st.stats with rpcCalls := bumpCall st.stats.rpcCalls rpcFunc } }
  match outcomes i with
  | .zmqErr => (st0, .ok none)
  | .net o => sendReceive st0 rpcFunc o

/-- The bookkeeping of a failed attempt: `retries_left -= 1` (tracked by the
caller), `self._stats_socket_errors += 1`, then `self._close_socket(idx)`. -/
def failPenalty (st1 : PoolState) : PoolState :=
  closeSocket { st1 with stats := { st1.stats with socketErrors := st1.stats.socketErrors + 1 } }

/-- The exception raised when the retry budget is exhausted. -/
def connAbandoned : PyExc :=
  .quikLuaConnection "Server seems to be offline, abandoning"

/-- The `while True` body of `rpc_call` after the slot is acquired.
`retriesLeft` is the Python `retries_left` counter; the stream `outcomes`
supplies the network outcome of attempt `i`.  A structured-error reply
propagates out of the loop; a success returns; a failed attempt pays
`failPenalty`, and then — since Python decrements `retries_left` BEFORE the
`<= 0` check — a budget of `0` or `1` raises `QuikLuaConnectionException`
while a budget of `n + 2` recreates the socket in the same slot and loops
with budget `n + 1`.  The `finally` clause releases the slot on every exit
path. -/
def rpcCallAux (rpcFunc : String) (outcomes : Nat → AttemptOutcome) :
    Nat → Nat → PoolState → PoolState × Except PyExc RpcResult
  | 0, i, st =>
    match rpcAttempt rpcFunc outcomes i st with
    | (st1, .error e) => (releaseSlot st1, .error e)
    | (st1, .ok (some res)) => (releaseSlot st1, .ok res)
    | (st1, .ok none) => (releaseSlot (failPenalty st1), .error connAbandoned)
  | 1, i, st =>
    match rpcAttempt rpcFunc outcomes i st with
    | (st1, .error e) => (releaseSlot st1, .error e)
    | (st1, .ok (some res)) => (releaseSlot st1, .ok res)
    | (st1, .ok none) => (releaseSlot (failPenalty st1), .error connAbandoned)
  | n + 2, i, st =>
    match rpcAttempt rpcFunc outcomes i st with
    | (st1, .error e) => (releaseSlot st1, .error e)
    | (st1, .ok (some res)) => (releaseSlot st1, .ok res)
    | (st1, .ok none) => rpcCallAux rpcFunc outcomes (n + 1) (i + 1) (initSocket (failPenalty st1))

/-- `rpc_call rpc_func`: acquire the slot, then run the retry loop with the
configured retry budget. -/
def rpcCall (rpcFunc : String) (retries : Nat) (outcomes : Nat → AttemptOutcome)
    (st : PoolState) : PoolState × Except PyExc RpcResult :=
  rpcCallAux rpcFunc outcomes retries 0 (acquireSocket st)

/-- The dictionary returned by `ZMQSocketPoolAsync.stats`. -/
structure StatsReport where
  rpcCallCount : Nat
  rpcAvgRoundtrip : Rat
  rpcCallFunctions : List (String × Nat)
  rpcErrorCount : Nat
  socketErrorCount : Nat
deriving DecidableEq, Repr

/-- `stats()`: the average roundtrip is `-1` unless the total count is
nonzero, in which case it is total time over total count. -/
def poolStatsReport (st : PoolStats) : StatsReport :=
  { rpcCallCount := st.rpcTotalCount
    rpcAvgRoundtrip :=
      if st.rpcTotalCount = 0 then -1 else st.rpcTotalTime / (st.rpcTotalCount : Rat)
    rpcCallFunctions := st.rpcCalls
    rpcErrorCount := st.rpcErrors
    socketErrorCount := st.socketErrors }

/-!
## Parameter cache (`cache.py`, `ParamCache`)

`process_param` decodes a `getParamEx2` RPC response into the typed value
map.  Numeric strings are decoded by a decimal parser standing in for
Python's `float()` / `int()` on the well-formed inputs the terminal sends;
a failed parse is a `ValueError`, as in Python.
-/

/-- Digits of a nonempty decimal numeral, else `none`. -/
def digitsToNat : List Char → Option Nat
  | [] => none
  | cs => cs.foldl (fun acc c =>
      match acc with
      | none => none
      | some n => if c.isDigit then some (n * 10 + (c.toNat - 48)) else none) (some 0)

/-- Python `int(s)` on the plain-digit strings used here. -/
def pyInt (s : String) : Option Nat :=
  digitsToNat s.toList

/-- Python `float(s)` on decimal literals `[-]digits[.digits]`. -/
def pyFloat (s : String) : Option Rat :=
  let core : String → Option Rat := fun u =>
    match (u.splitOn ".").map (fun p => digitsToNat p.toList) with
    | [some ip] => some (ip : Rat)
    | [some ip, some fp] =>
      some ((ip : Rat) + (fp : Rat) / ((10 : Rat) ^ (u.splitOn ".")[1]!.length))
    | _ => none
  if s.startsWith "-" then (core (s.drop 1)).map (fun q => -q) else core s

/-- A decoded parameter value: float, `float('nan')`, string,
`datetime.time`, or `datetime.datetime` parsed from `DD.MM.YYYY`. -/
inductive PValue where
  | num (v : Rat)
  | nanV
  | strV (s : String)
  | timeV (h m s : Nat)
  | dateV (d m y : Nat)
deriving DecidableEq, Repr

/-- The `param_ex` object of a `getParamEx2` reply. -/
structure ParamEx where
  param_type : String
  result : String
  param_image : String
  param_value : String
deriving DecidableEq, Repr

/-- `ParamCache`: instrument pair, the value map keyed by lowercased
parameter name (`None` initially), and the last-change timestamp. -/
structure ParamCache where
  class_code : String
  sec_code : String
  params : List (String × Option PValue)
  last_quote_change_utc : Option Nat
deriving DecidableEq, Repr

/-- Python `str.lower()` (character-wise lowercasing; the parameter and
event names involved are ASCII). -/
def pyLower (s : String) : String :=
  String.mk (s.data.map Char.toLower)

/-- First-match association lookup (Python `dict.get`). -/
def alGet {κ α : Type} [DecidableEq κ] (l : List (κ × α)) (k : κ) : Option α :=
  match l with
  | [] => none
  | (g, v) :: t => if g = k then some v else alGet t k

/-- Association update (Python `d[k] = v`; appends when the key is new). -/
def alSet {κ α : Type} [DecidableEq κ] (l : List (κ × α)) (k : κ) (v : α) : List (κ × α) :=
  match l with
  | [] => [(k, v)]
  | (g, w) :: t => if g = k then (g, v) :: t else (g, w) :: alSet t k v

/-- Python `del d[k]`: remove the (unique) binding of `k`. -/
def alErase {κ α : Type} [DecidableEq κ] (l : List (κ × α)) (k : κ) : List (κ × α) :=
  match l with
  | [] => []
  | (g, w) :: t => if g = k then t else (g, w) :: alErase t k

/-- `ParamCache.__init__`: rejects an empty `params_list`, otherwise maps
every lowercased name to `None`. -/
def mkParamCache (class_code sec_code : String) (params_list : List String) :
    Except PyExc ParamCache :=
  if params_list.isEmpty then .error (.valueError "params_list is empty")
  else .ok { class_code := class_code, sec_code := sec_code
             params := params_list.map (fun p => (pyLower p, none))
             last_quote_change_utc := none }

/-- Python `self.params.get(key) != _val` for a freshly parsed float
`_val`: true unless the stored value is the same float.  (A stored
`float('nan')` compares unequal to everything, including itself.) -/
def storedNeFloat (ov : Option (Option PValue)) (v : Rat) : Bool :=
  match ov with
  | some (some (.num w)) => decide (w ≠ v)
  | _ => true

/-- `ParamCache.process_param key response now`: the two leading `assert`s,
then the `result != '1'` branches, then the `param_type` decoding switch.
`response` is the optional `param_ex` member (`None` when the reply had no
`param_ex` key, which trips the second assert). -/
def processParam (pc : ParamCache) (param_key : String) (response : Option ParamEx)
    (nowUtc : Nat) : Except PyExc ParamCache :=
  let key := pyLower param_key
  if (alGet pc.params key).isNone then
    .error (.assertionError ("Param key " ++ key ++ " is not requested at ParamCache constructor"))
  else
    match response with
    | none => .error (.assertionError "Expected to get getParamEx2() RPC response format")
    | some res =>
      if res.result ≠ "1" then
        -- `if key in self.params:` — key membership in the value dict
        if (alGet pc.params key).isSome then
          .error (.quikLuaConnection ("(" ++ pc.class_code ++ "," ++ pc.sec_code ++
            "): missing param valid param " ++ key ++ ", possibly after disconnect"))
        else
          .error (.quikLua ("(" ++ pc.class_code ++ "," ++ pc.sec_code ++
            "): getParamEx2() unknown or invalid param key: " ++ param_key))
      else if res.param_type = "1" ∨ res.param_type = "2" then
        if res.result = "1" then
          match pyFloat res.param_value with
          | none => .error (.valueError ("could not convert string to float: " ++ res.param_value))
          | some v =>
            let lq := if storedNeFloat (alGet pc.params key) v then some nowUtc
                      else pc.last_quote_change_utc
            .ok { pc with params := alSet pc.params key (some (.num v)),
                          last_quote_change_utc := lq }
        else
          .ok { pc with params := alSet pc.params key (some .nanV) }
      else if res.param_type = "3" ∨ res.param_type = "4" then
        if res.result = "1" then
          .ok { pc with params := alSet pc.params key (some (.strV res.param_image)) }
        else
          .ok { pc with params := alSet pc.params key none }
      else if res.param_type = "5" then
        if res.result = "1" ∧ res.param_image ≠ "" then
          if ¬ (res.param_image.toList.contains ':') then
            .error (.quikLua ("Unknown param time format " ++ key ++ ": " ++ res.param_image))
          else
            match res.param_image.splitOn ":" with
            | t0 :: t1 :: t2 :: _ =>
              match pyInt t0, pyInt t1, pyInt t2 with
              | some h, some m, some s =>
                if h ≤ 23 ∧ m ≤ 59 ∧ s ≤ 59 then
                  .ok { pc with params := alSet pc.params key (some (.timeV h m s)) }
                else .error (.valueError "time value out of range")
              | _, _, _ => .error (.valueError "invalid literal for int()")
            | _ => .error (.indexError "list index out of range")
        else
          .ok { pc with params := alSet pc.params key none }
      else if res.param_type = "6" then
        if res.result = "1" ∧ res.param_image ≠ "" then
          match res.param_image.splitOn "." with
          | [d0, m0, y0] =>
            match pyInt d0, pyInt m0, pyInt y0 with
            | some d, some m, some y =>
              if 1 ≤ d ∧ d ≤ 31 ∧ 1 ≤ m ∧ m ≤ 12 then
                .ok { pc with params := alSet pc.params key (some (.dateV d m y)) }
              else .error (.valueError "day or month is out of range")
            | _, _, _ => .error (.valueError "invalid date literal")
          | _ => .error (.valueError "time data does not match format")
        else
          .ok { pc with params := alSet pc.params key none }
      else
        .error (.quikLua ("(" ++ pc.class_code ++ "," ++ pc.sec_code ++
          "): getParamEx2() returned unknown param type"))

/-!
## History cache (`cache.py`, `HistoryCache`)

The candle series is a list of `(timestamp, candle)` rows, the DataFrame's
`DatetimeIndex` being the list of first components.  Candle cells are exact
numerics, so the null-filling aspect of `DataFrame.combine_first` is
vacuous and the merge reduces to a union of two increasingly-indexed
series preferring the caller (`quotes_df`).
-/

/-- One OHLCV candle row (columns `o h l c v` of the quotes DataFrame). -/
structure Candle where
  o : Rat
  h : Rat
  l : Rat
  c : Rat
  v : Rat
deriving DecidableEq, Repr

/-- A candle series: rows indexed by timestamp. -/
abbrev Series := List (Nat × Candle)

/-- `index.is_monotonic_increasing` — adjacent timestamps non-decreasing. -/
def tsSorted : Series → Bool
  | [] => true
  | [_] => true
  | a :: b :: t => decide (a.1 ≤ b.1) && tsSorted (b :: t)

/-- Strict monotonicity of the timestamp index. -/
def tsStrict : Series → Bool
  | [] => true
  | [_] => true
  | a :: b :: t => decide (a.1 < b.1) && tsStrict (b :: t)

/-- Row at timestamp `t` of a series (first match). -/
def tsLookup (t : Nat) : Series → Option Candle
  | [] => none
  | (u, c) :: rest => if u = t then some c else tsLookup t rest

/-- `new.combine_first(old)` on two increasingly-indexed frames with no
null cells: the sorted union of the two indexes, rows of `new` winning on
an index collision. -/
def mergeCF : Series → Series → Series
  | [], old => old
  | a :: n, [] => a :: n
  | (t1, c1) :: n, (t2, c2) :: o =>
    if t1 < t2 then (t1, c1) :: mergeCF n ((t2, c2) :: o)
    else if t2 < t1 then (t2, c2) :: mergeCF ((t1, c1) :: n) o
    else (t1, c1) :: mergeCF n o

/-- `HistoryCache` state: the optional stored series, the last stored bar's
timestamp, the server-side cursor id, the last-update wall-clock time and
the minimum refresh interval (both in seconds). -/
structure HistoryCache where
  class_code : String
  sec_code : String
  interval : String
  data : Option Series
  lastQuote : Option Nat
  dsUuid : Option String
  lastUpdate : Option Rat
  cacheUpdateIntervalSec : Rat
deriving DecidableEq, Repr

/-- The stored series as a list (empty when `_data is None`). -/
def HistoryCache.series (h : HistoryCache) : Series :=
  h.data.getD []

/-- `HistoryCache.process_history quotes_df` at wall-clock `now`: assert the
batch is sorted ascending, then adopt it if the cache holds no data, else
`combine_first` it over the old data; a nonempty batch also refreshes
`_last_quote` and `_last_update`. -/
def processHistory (hc : HistoryCache) (quotes : Series) (now : Rat) :
    Except PyExc HistoryCache :=
  if ¬ (tsSorted quotes) then
    .error (.assertionError "quotes_df must be sorted by date ascending")
  else
    match hc.data, quotes.getLast? with
    | none, none => .ok hc
    | none, some lastRow =>
      .ok { hc with data := some quotes, lastQuote := some lastRow.1, lastUpdate := some now }
    | some _, none => .ok hc
    | some old, some lastRow =>
      .ok { hc with data := some (mergeCF quotes old), lastQuote := some lastRow.1,
                    lastUpdate := some now }

/-- `HistoryCache.can_update` at wall-clock `now`: `True` for a fresh
cache, otherwise `True` only when strictly more than
`_cache_update_interval_sec` seconds have passed since `_last_update`. -/
def canUpdate (hc : HistoryCache) (now : Rat) : Bool :=
  match hc.lastUpdate with
  | none => true
  | some lu => decide (now - lu > hc.cacheUpdateIntervalSec)

/-!
## Parameter watcher (`cache.py`, `ParamWatcher`)

`self._watched` is a pandas `DataFrame`.  `subscribed` writes rows through
`.at[idx_key, column]` (row label `idx_key`, creating the row and the
`upd_int` column on demand), while `unsubscribed` executes
`del self._watched[idx_key]` — and on a `DataFrame`, `del df[k]` deletes
the COLUMN named `k` (raising `KeyError` when no such column exists, which
the code swallows).  The model therefore keeps both the column-label list
and the rows, each row an association list from column label to cell.
-/

/-- One DataFrame cell of the watcher table. -/
inductive WCell where
  | wnum (v : Rat)
  | wkey (k : String × String × String)
deriving DecidableEq, Repr

/-- The `ParamWatcher` DataFrame: column labels and labelled rows. -/
structure ParamWatcher where
  cols : List String
  rows : List (String × List (String × WCell))
deriving DecidableEq, Repr

/-- `ParamWatcher.__init__`: empty frame with columns `dt`, `key`. -/
def mkParamWatcher : ParamWatcher :=
  { cols := ["dt", "key"], rows := [] }

/-- `df.at[idx, col] = v`: add the column label and the row label when
absent, then set the cell. -/
def watcherAt (w : ParamWatcher) (idx col : String) (v : WCell) : ParamWatcher :=
  let cols := if w.cols.contains col then w.cols else w.cols ++ [col]
  let rows :=
    match alGet w.rows idx with
    | none => w.rows ++ [(idx, [(col, v)])]
    | some r => alSet w.rows idx (alSet r col v)
  { cols := cols, rows := rows }

/-- `'__'.join((class_code, sec_code, param))`. -/
def idxKey (class_code sec_code param : String) : String :=
  class_code ++ "__" ++ sec_code ++ "__" ++ param

/-- `ParamWatcher.subscribed`: for each tuple, lowercase the parameter and
write the `dt`, `key` and `upd_int` cells of row `idx_key`. -/
def watcherSubscribed (w : ParamWatcher)
    (lst : List (String × String × String × Rat)) (dtNow : Rat) : ParamWatcher :=
  lst.foldl (fun w item =>
    match item with
    | (class_code, sec_code, param0, upd) =>
      let param := pyLower param0
      let k := idxKey class_code sec_code param
      let w := watcherAt w k "dt" (.wnum dtNow)
      let w := watcherAt w k "key" (.wkey (class_code, sec_code, param))
      watcherAt w k "upd_int" (.wnum upd)) w

/-- `del df[k]` on the watcher DataFrame: delete column `k`, or raise
`KeyError` when `k` is not a column label. -/
def watcherDelItem (w : ParamWatcher) (k : String) : Except PyExc ParamWatcher :=
  if w.cols.contains k then
    .ok { cols := w.cols.filter (fun c => c ≠ k)
          rows := w.rows.map (fun r => (r.1, r.2.filter (fun cell => cell.1 ≠ k))) }
  else .error (.keyError k)

/-- `ParamWatcher.unsubscribed`: for each tuple, try
`del self._watched[idx_key]` and swallow the `KeyError`. -/
def watcherUnsubscribed (w : ParamWatcher)
    (lst : List (String × String × String)) : ParamWatcher :=
  lst.foldl (fun w item =>
    match item with
    | (class_code, sec_code, param0) =>
      let param := pyLower param0
      match watcherDelItem w (idxKey class_code sec_code param) with
      | .ok w2 => w2
      | .error _ => w) w

/-- `ParamWatcher.count`: `len(self._watched)` is the number of rows. -/
def watcherCount (w : ParamWatcher) : Nat :=
  w.rows.length

/-!
## Client façade (`client.py`, `QuikLuaClientBase`)

The client state holds the configuration stored by `__init__` and the
mutable aggregates (`_quote_cache`, `_params_cache`, `_params_watcher`, the
shutdown flag, and the lifecycle flags of the two pools and the ZMQ
context).  RPC calls an operation issues are returned as an `Effect` log.
-/

/-- `needle` is a leading run of `hay` (character-by-character). -/
def listStartsWith : List Char → List Char → Bool
  | _, [] => true
  | [], _ :: _ => false
  | a :: hs, b :: ns => a = b && listStartsWith hs ns

/-- `needle in hay` on Python strings (substring containment). -/
def listContainsSub (needle : List Char) : List Char → Bool
  | [] => listStartsWith [] needle
  | h :: t => listStartsWith (h :: t) needle || listContainsSub needle t

/-- Python `needle in hay` for strings. -/
def strContainsSub (hay needle : String) : Bool :=
  listContainsSub needle.toList hay.toList

/-- Externally visible RPC / resource effects of a client operation. -/
inductive Effect where
  | dsClose (uuid : Option String)
  | cancelParam (class_code sec_code param : String)
  | closeDataPool
  | closeRpcPool
  | destroyCtx
deriving DecidableEq, Repr

/-- Observable state of `QuikLuaClientBase`. -/
structure ClientState where
  rpcHost : String
  dataHost : Option String
  eventHost : Option String
  eventFilter : Option (List String)
  socketTimeout : Nat
  nSimultaneousSockets : Nat
  historyBackfillIntervalSec : Nat
  quoteCacheMinUpdateSec : Rat
  paramsPollInterval : Rat
  paramsDelayTimeoutSec : Rat
  quoteCache : List ((String × String × String) × HistoryCache)
  paramsCache : List ((String × String) × ParamCache)
  watcher : ParamWatcher
  lastDataProcessed : Option Nat
  lastQuoteProcessed : Option Nat
  lastEventProcessed : Option Nat
  isShuttingDown : Bool
  dataPoolClosed : Bool
  rpcPoolClosed : Bool
  ctxDestroyed : Bool
deriving DecidableEq, Repr

/-- `QuikLuaClientBase.__init__`: stores the configuration and creates the
empty caches and the watcher.  It inspects `rpc_host` in no way — there is
no validation of any constructor argument — and it cannot fail. -/
def quikLuaClientInit (rpc_host : String) (data_host : Option String)
    (socket_timeout : Nat) (n_simultaneous_sockets : Nat)
    (history_backfill_interval_sec : Nat) (cache_min_update_sec : Rat)
    (params_poll_interval_sec : Rat) (params_delay_timeout_sec : Rat)
    (event_host : Option String) (event_list : Option (List String)) : ClientState :=
  { rpcHost := rpc_host
    dataHost := data_host
    eventHost := event_host
    eventFilter :=
      match event_list with
      | none => none
      | some [] => none  -- `if event_list` is falsy on an empty list
      | some l => some ((l.map pyLower).dedup)
    socketTimeout := socket_timeout
    nSimultaneousSockets := n_simultaneous_sockets
    historyBackfillIntervalSec := history_backfill_interval_sec
    quoteCacheMinUpdateSec := cache_min_update_sec
    paramsPollInterval := params_poll_interval_sec
    paramsDelayTimeoutSec := params_delay_timeout_sec
    quoteCache := []
    paramsCache := []
    watcher := mkParamWatcher
    lastDataProcessed := none
    lastQuoteProcessed := none
    lastEventProcessed := none
    isShuttingDown := false
    dataPoolClosed := false
    rpcPoolClosed := false
    ctxDestroyed := false }

/-- `params_unsubscribe(class_code, sec_code)`: no-op when the pair is not
in `_params_cache`; otherwise, under the watcher's lock, run the watcher's
`unsubscribed`, issue one `CancelParamRequest` per cached parameter, and
delete the cache entry. -/
def clientParamsUnsubscribe (st : ClientState) (class_code sec_code : String) :
    ClientState × List Effect :=
  match alGet st.paramsCache (class_code, sec_code) with
  | none => (st, [])
  | some cache =>
    let paramsToUnwatch := cache.params.map (fun p => (class_code, sec_code, p.1))
    if paramsToUnwatch.isEmpty then (st, [])
    else
      let w2 := watcherUnsubscribed st.watcher paramsToUnwatch
      let effs := cache.params.map (fun p => Effect.cancelParam class_code sec_code p.1)
      ({ st with watcher := w2
                 paramsCache := alErase st.paramsCache (class_code, sec_code) }, effs)

/-- `shutdown()`: return at once when already shutting down; otherwise set
the flag, close every quote-cache datasource, unsubscribe every parameter
subscription, close both pools, and destroy the ZMQ context. -/
def clientShutdown (st : ClientState) : ClientState × List Effect :=
  if st.isShuttingDown then (st, [])
  else
    let st1 : ClientState := { st with isShuttingDown := true }
    let dsEffs := st1.quoteCache.map (fun qc => Effect.dsClose qc.2.dsUuid)
    let keys := st1.paramsCache.map (fun p => p.1)
    let folded := keys.foldl
      (fun (acc : ClientState × List Effect) k =>
        let r := clientParamsUnsubscribe acc.1 k.1 k.2
        (r.1, acc.2 ++ r.2)) (st1, [])
    ({ folded.1 with dataPoolClosed := true, rpcPoolClosed := true, ctxDestroyed := true },
      dsEffs ++ folded.2 ++ [Effect.closeDataPool, Effect.closeRpcPool, Effect.destroyCtx])

/-!
## Candle walk of `get_price_history` (`client.py`)

After the backfill wait, the code walks candle indices from `size` down to
1, stopping at the first bar older than the cache's last bar date (or
`date_from` when the cache is empty).  `bars` is the per-index sequence of
`(timestamp, candle)` values in that walk order (newest first).
-/

/-- The collection loop: keep bars until one with
`bar_date < last_bar_date` breaks the walk. -/
def candleWalk (lastBarDate : Nat) : Series → Series
  | [] => []
  | (t, c) :: rest =>
    if t < lastBarDate then [] else (t, c) :: candleWalk lastBarDate rest

/-- Ascending insertion (for `set_index('dt').sort_index()`). -/
def insertTs (row : Nat × Candle) : Series → Series
  | [] => [row]
  | b :: t => if row.1 ≤ b.1 then row :: b :: t else b :: insertTs row t

/-- `pd.DataFrame(result).set_index('dt').sort_index()`. -/
def sortByTs (s : Series) : Series :=
  s.foldr insertTs []

/-- Tail of `get_price_history` on the caching path (`use_caching=True`),
from the walk onward: collect bars, and if nothing was collected return a
fresh empty DataFrame leaving the cache untouched; otherwise sort the
collected bars ascending, merge them with `process_history` at wall-clock
`now`, and return the cache's (possibly copied) series. -/
def getPriceHistoryTail (cache : HistoryCache) (dateFrom : Nat) (bars : Series)
    (now : Rat) : Except PyExc (Series × HistoryCache) :=
  let lastBarDate :=
    match cache.lastQuote with
    | some lb => lb  -- `if cache.last_bar_date:` — a set timestamp is truthy
    | none => dateFrom
  match candleWalk lastBarDate bars with
  | [] => .ok ([], cache)
  | r :: rs =>
    match processHistory cache (sortByTs (r :: rs)) now with
    | .error e => .error e
    | .ok cache2 => .ok (cache2.series, cache2)

/-!
## Theorems
-/

/-- Claim C10: `stats()` is total — when the total RPC call count is zero
the reported average roundtrip is `-1` (the division is guarded and never
performed with a zero divisor); otherwise it equals the cumulative
roundtrip time divided by the total count. -/
theorem statsAvgRoundtripTotal (st : PoolStats) :
    (st.rpcTotalCount = 0 → (poolStatsReport st).rpcAvgRoundtrip = -1) ∧
    (st.rpcTotalCount ≠ 0 →
      (poolStatsReport st).rpcAvgRoundtrip * (st.rpcTotalCount : Rat) = st.rpcTotalTime) := by
  constructor
  · intro h
    simp [poolStatsReport, h]
  · intro h
    simp only [poolStatsReport, if_neg h]
    rw [div_mul_cancel₀]
    exact_mod_cast h

/-- Witness for claim C10 at a pool that has made two calls totalling three
seconds of roundtrip. -/
theorem statsAvgRoundtripTotalWitness :
    (poolStatsReport ⟨0, 0, [], 3, 2⟩).rpcAvgRoundtrip * ((2 : Nat) : Rat) = 3 :=
  (statsAvgRoundtripTotal ⟨0, 0, [], 3, 2⟩).2 (by decide)

/-- Claim C7 (amended): `can_update` returns true iff no prior update has
been recorded or STRICTLY MORE than `min_refresh_sec` seconds have elapsed
since the last update; at exactly `min_refresh_sec` it returns false. -/
theorem canUpdateIffStrictElapsed (hc : HistoryCache) (now : Rat) :
    canUpdate hc now = true ↔
      (hc.lastUpdate = none ∨
        ∃ lu, hc.lastUpdate = some lu ∧ now - lu > hc.cacheUpdateIntervalSec) := by
  cases h : hc.lastUpdate with
  | none => simp [canUpdate, h]
  | some lu => simp [canUpdate, h]

/-- Claim C7 counterexample: a cache last updated at time `0` with
`min_refresh_sec = 1/5`, probed at time exactly `1/5`: the elapsed time
equals `min_refresh_sec`, yet `can_update` returns `false` (the code
compares with a strict `>`), where the claim requires `true`. -/
theorem canUpdateBoundaryCounterexample :
    ((1 : Rat) / 5 - 0 ≥ (1 : Rat) / 5) ∧
    canUpdate { class_code := "SPBFUT", sec_code := "RIH1", interval := "INTERVAL_M1",
                data := none, lastQuote := none, dsUuid := none,
                lastUpdate := some 0, cacheUpdateIntervalSec := 1 / 5 } (1 / 5) = false := by
  constructor
  · norm_num
  · simp only [canUpdate]
    norm_num

/-- Claim C2 (amended): construction performs no endpoint validation at
all — `__init__` stores `rpc_host` verbatim and always succeeds, whether or
not the endpoint references localhost. -/
theorem clientInitNoHostValidation (rpc_host : String) (dh eh : Option String)
    (sto ns hb : Nat) (cmu ppi pdt : Rat) (el : Option (List String)) :
    (quikLuaClientInit rpc_host dh sto ns hb cmu ppi pdt eh el).rpcHost = rpc_host ∧
    (quikLuaClientInit rpc_host dh sto ns hb cmu ppi pdt eh el).isShuttingDown = false :=
  ⟨rfl, rfl⟩

/-- Claim C2 counterexample: an endpoint containing neither `127.0.0.1` nor
`localhost` still constructs successfully (a live, not-shutting-down client
holding that remote endpoint), where the claim requires construction to
fail. -/
theorem clientInitRemoteHostCounterexample :
    strContainsSub "tcp://192.168.0.5:5580" "127.0.0.1" = false ∧
    strContainsSub "tcp://192.168.0.5:5580" "localhost" = false ∧
    (quikLuaClientInit "tcp://192.168.0.5:5580" none 100 5 10 (1/5) (1/10) 60
        none none).rpcHost = "tcp://192.168.0.5:5580" ∧
    (quikLuaClientInit "tcp://192.168.0.5:5580" none 100 5 10 (1/5) (1/10) 60
        none none).isShuttingDown = false := by
  refine ⟨by decide, by decide, rfl, rfl⟩

/-- `params_unsubscribe` never touches the shutdown flag. -/
theorem clientParamsUnsubscribeShutdownFlag (st : ClientState) (c s : String) :
    (clientParamsUnsubscribe st c s).1.isShuttingDown = st.isShuttingDown := by
  unfold clientParamsUnsubscribe
  cases alGet st.paramsCache (c, s) with
  | none => rfl
  | some cache =>
    by_cases h : (cache.params.map (fun p => (c, s, p.1))).isEmpty
    · simp [h]
    · simp [h]

/-- The unsubscribe-all fold inside `shutdown` never touches the shutdown
flag. -/
theorem shutdownUnsubFoldFlag (keys : List (String × String)) :
    ∀ acc : ClientState × List Effect,
      ((keys.foldl (fun (acc : ClientState × List Effect) k =>
        let r := clientParamsUnsubscribe acc.1 k.1 k.2
        (r.1, acc.2 ++ r.2)) acc).1).isShuttingDown = acc.1.isShuttingDown := by
  induction keys with
  | nil => intro acc; rfl
  | cons k t ih =>
    intro acc
    rw [List.foldl_cons, ih]
    exact clientParamsUnsubscribeShutdownFlag acc.1 k.1 k.2

/-- A client already in the shutting-down state is left untouched by
`shutdown`, with no effect issued. -/
theorem clientShutdownNoOp (st : ClientState) (h : st.isShuttingDown = true) :
    clientShutdown st = (st, []) := by
  unfold clientShutdown
  simp [h]

/-- After any `shutdown` call the flag is set. -/
theorem clientShutdownSetsFlag (st : ClientState) :
    (clientShutdown st).1.isShuttingDown = true := by
  unfold clientShutdown
  by_cases h : st.isShuttingDown = true
  · simp [h]
  · simp only [h, if_neg, Bool.false_eq_true, if_false]
    exact shutdownUnsubFoldFlag _ _

/-- Claim C8: calling `shutdown` twice is the same as calling it once — the
second call finds the flag set and returns at once, with no cursor closes,
no unsubscriptions, no pool closes and no state change. -/
theorem shutdownIdempotent (st : ClientState) :
    clientShutdown (clientShutdown st).1 = ((clientShutdown st).1, []) :=
  clientShutdownNoOp (clientShutdown st).1 (clientShutdownSetsFlag st)

/-- Claim C1 (amended): whenever a `getParamEx2` response has
`result != '1'`, `process_param` raises the connectivity-error variant —
regardless of whether the parameter was ever populated.  The membership
test `key in self.params` guarding the connectivity branch is already
guaranteed by the preceding assert (the constructor maps every requested
key to `None`), so the generic-error branch is unreachable. -/
theorem processParamFailedResultConnection (pc : ParamCache) (key : String)
    (res : ParamEx) (now : Nat)
    (hmem : (alGet pc.params (pyLower key)).isSome = true)
    (hres : res.result ≠ "1") :
    errIsConnection (processParam pc key (some res) now) = true := by
  cases h : alGet pc.params (pyLower key) with
  | none => rw [h] at hmem; simp at hmem
  | some v =>
    unfold processParam
    simp [h, hres, errIsConnection]

/-- Witness for claim C1 at a cache built for parameter `bid` and a failed
response. -/
theorem processParamFailedResultConnectionWitness :
    errIsConnection (processParam ⟨"SPBFUT", "RIH1", [("bid", none)], none⟩ "bid"
      (some ⟨"1", "0", "", ""⟩) 0) = true :=
  processParamFailedResultConnection ⟨"SPBFUT", "RIH1", [("bid", none)], none⟩ "bid"
    ⟨"1", "0", "", ""⟩ 0 (by decide) (by decide)

/-- Claim C1 counterexample: the parameter `bid` was never populated (its
cached value is still `None`), the response has `result != '1'`, and the
claim therefore requires the generic error — but the code raises the
connectivity variant. -/
theorem processParamNeverPopulatedCounterexample :
    alGet (⟨"SPBFUT", "RIH1", [("bid", none)], none⟩ : ParamCache).params "bid"
      = some none ∧
    errIsConnection (processParam ⟨"SPBFUT", "RIH1", [("bid", none)], none⟩ "bid"
      (some ⟨"1", "0", "", ""⟩) 0) = true ∧
    errIsGeneric (processParam ⟨"SPBFUT", "RIH1", [("bid", none)], none⟩ "bid"
      (some ⟨"1", "0", "", ""⟩) 0) = false := by
  refine ⟨by rfl, by rfl, by rfl⟩

/-- Claim C9: when the cache has a last bar date and every fetched bar
timestamp precedes it, the candle walk collects nothing and
`get_price_history` returns a fresh empty series — not the cached one —
leaving the cache entry untouched (no merge, no last-update advance). -/
theorem priceHistoryEmptyWalkLeavesCache (cache : HistoryCache) (dateFrom : Nat)
    (bars : Series) (now : Rat) (lb : Nat)
    (hlb : cache.lastQuote = some lb)
    (hold : ∀ t c, (t, c) ∈ bars → t < lb) :
    getPriceHistoryTail cache dateFrom bars now = .ok ([], cache) := by
  have hwalk : candleWalk lb bars = [] := by
    cases bars with
    | nil => rfl
    | cons b rest =>
      have hb := hold b.1 b.2 (by simp)
      simp [candleWalk, hb]
  unfold getPriceHistoryTail
  simp [hlb, hwalk]

/-- Witness for claim C9: a cache whose last bar is at time `10` holding a
nonempty series, against a fetch whose only bar is at time `5`. -/
theorem priceHistoryEmptyWalkLeavesCacheWitness :
    getPriceHistoryTail
      { class_code := "SPBFUT", sec_code := "RIH1", interval := "INTERVAL_M1",
        data := some [(10, ⟨1, 2, 1, 2, 3⟩)], lastQuote := some 10, dsUuid := some "u1",
        lastUpdate := some 0, cacheUpdateIntervalSec := 1 / 5 }
      0 [(5, ⟨1, 1, 1, 1, 1⟩)] 7
    = .ok ([],
      { class_code := "SPBFUT", sec_code := "RIH1", interval := "INTERVAL_M1",
        data := some [(10, ⟨1, 2, 1, 2, 3⟩)], lastQuote := some 10, dsUuid := some "u1",
        lastUpdate := some 0, cacheUpdateIntervalSec := 1 / 5 }) :=
  priceHistoryEmptyWalkLeavesCache _ 0 _ 7 10 rfl
    (by intro t c hmem; simp at hmem; omega)

/-- Claim C3 evaluation at the failing input: one subscription
`(SPBFUT, RIH1, bid)` is installed in the watcher and the cache; after
`params_unsubscribe('SPBFUT', 'RIH1')` the cache entry is gone, but the
watcher still holds the full row `SPBFUT__RIH1__bid` — `del df[idx_key]`
deletes a DataFrame COLUMN, never a row, so its `KeyError` is swallowed and
the row survives, contradicting the claim (and the code's own
`# All good, index was deleted` comment). -/
theorem paramsUnsubscribeLeavesWatcherRow :
    (clientParamsUnsubscribe
      { quikLuaClientInit "tcp://localhost:5580" none 100 5 10 (1/5) (1/10) 60 none none with
        watcher := watcherSubscribed mkParamWatcher [("SPBFUT", "RIH1", "bid", 1)] 0
        paramsCache := [(("SPBFUT", "RIH1"), ⟨"SPBFUT", "RIH1", [("bid", none)], none⟩)] }
      "SPBFUT" "RIH1").1.watcher
      = watcherSubscribed mkParamWatcher [("SPBFUT", "RIH1", "bid", 1)] 0 ∧
    watcherCount (clientParamsUnsubscribe
      { quikLuaClientInit "tcp://localhost:5580" none 100 5 10 (1/5) (1/10) 60 none none with
        watcher := watcherSubscribed mkParamWatcher [("SPBFUT", "RIH1", "bid", 1)] 0
        paramsCache := [(("SPBFUT", "RIH1"), ⟨"SPBFUT", "RIH1", [("bid", none)], none⟩)] }
      "SPBFUT" "RIH1").1.watcher = 1 ∧
    (alGet (clientParamsUnsubscribe
      { quikLuaClientInit "tcp://localhost:5580" none 100 5 10 (1/5) (1/10) 60 none none with
        watcher := watcherSubscribed mkParamWatcher [("SPBFUT", "RIH1", "bid", 1)] 0
        paramsCache := [(("SPBFUT", "RIH1"), ⟨"SPBFUT", "RIH1", [("bid", none)], none⟩)] }
      "SPBFUT" "RIH1").1.watcher.rows (idxKey "SPBFUT" "RIH1" "bid")).isSome = true ∧
    alGet (clientParamsUnsubscribe
      { quikLuaClientInit "tcp://localhost:5580" none 100 5 10 (1/5) (1/10) 60 none none with
        watcher := watcherSubscribed mkParamWatcher [("SPBFUT", "RIH1", "bid", 1)] 0
        paramsCache := [(("SPBFUT", "RIH1"), ⟨"SPBFUT", "RIH1", [("bid", none)], none⟩)] }
      "SPBFUT" "RIH1").1.paramsCache ("SPBFUT", "RIH1") = none := by
  refine ⟨by decide, by decide, by decide, by decide⟩


/-- Claim C4: a reply is successful exactly when it contains a `result`
field with falsy `is_error` (the `result` object is then returned); a
structured error reply (no `result`, or `is_error` true) raises the
generic `QuikLuaException`, bumps the RPC-error counter, and at the
`rpc_call` level consumes no retry: the socket-error counter, the socket
ids and the closed-socket log are untouched, whatever the retry budget. -/
theorem rpcReplySuccessIff (st : PoolState) (req : String) (rep : Reply) (dur : Rat)
    (R : Nat) (outcomes : Nat → AttemptOutcome) (i : Nat) (stp : PoolState) :
    (∀ res : RpcResult, (sendReceive st req (.reply rep dur)).2 = .ok (some res) ↔
        (rep.result = some res ∧ res.isErr = false)) ∧
    ((rep.result = none ∨ ∃ res, rep.result = some res ∧ res.isErr = true) →
      errIsGeneric (sendReceive st req (.reply rep dur)).2 = true ∧
      (sendReceive st req (.reply rep dur)).1.stats.rpcErrors = st.stats.rpcErrors + 1) ∧
    (outcomes i = .net (.reply rep dur) →
      (rep.result = none ∨ ∃ res, rep.result = some res ∧ res.isErr = true) →
      errIsGeneric (rpcCallAux req outcomes R i stp).2 = true ∧
      (rpcCallAux req outcomes R i stp).1.stats.socketErrors = stp.stats.socketErrors ∧
      (rpcCallAux req outcomes R i stp).1.stats.rpcErrors = stp.stats.rpcErrors + 1 ∧
      (rpcCallAux req outcomes R i stp).1.nextSockId = stp.nextSockId ∧
      (rpcCallAux req outcomes R i stp).1.closedLinger0 = stp.closedLinger0) := by
  obtain ⟨ores⟩ := rep
  refine ⟨?_, ?_, ?_⟩
  · intro res
    cases ores with
    | none => simp [sendReceive]
    | some res0 =>
      by_cases hE : res0.isErr = true
      · simp only [sendReceive, hE, if_true]
        constructor
        · intro h
          simp at h
        · rintro ⟨h1, h2⟩
          injection h1 with h1
          rw [h1] at hE
          rw [hE] at h2
          cases h2
      · simp only [Bool.not_eq_true] at hE
        simp only [sendReceive, hE, if_false, Bool.false_eq_true]
        constructor
        · intro h
          injection h with h
          injection h with h
          exact ⟨by rw [h], by rw [← h]; exact hE⟩
        · rintro ⟨h1, _⟩
          injection h1 with h1
          rw [h1]
  · rintro (hnone | ⟨res0, hsome, hE⟩)
    · subst hnone
      simp [sendReceive, errIsGeneric]
    · subst hsome
      simp [sendReceive, hE, errIsGeneric]
  · intro hout hstruct
    rcases hstruct with hnone | ⟨res0, hsome, hE⟩
    · subst hnone
      rcases R with _ | _ | n <;>
        simp [rpcCallAux, rpcAttempt, hout, sendReceive, releaseSlot, errIsGeneric]
    · subst hsome
      rcases R with _ | _ | n <;>
        simp [rpcCallAux, rpcAttempt, hout, sendReceive, hE, releaseSlot, errIsGeneric]

/-- Witness for claim C4 at a reply whose `result.is_error` is set, inside
a call with the default retry budget. -/
theorem rpcReplySuccessIffWitness :
    errIsGeneric (rpcCallAux "getClassesList"
      (fun _ => .net (.reply ⟨some ⟨true, "err"⟩⟩ 0)) 2 0
      ⟨⟨0, 0, [], 0, 0⟩, some 0, 1, true, []⟩).2 = true ∧
    (rpcCallAux "getClassesList"
      (fun _ => .net (.reply ⟨some ⟨true, "err"⟩⟩ 0)) 2 0
      ⟨⟨0, 0, [], 0, 0⟩, some 0, 1, true, []⟩).1.stats.socketErrors = 0 ∧
    (rpcCallAux "getClassesList"
      (fun _ => .net (.reply ⟨some ⟨true, "err"⟩⟩ 0)) 2 0
      ⟨⟨0, 0, [], 0, 0⟩, some 0, 1, true, []⟩).1.stats.rpcErrors = 0 + 1 ∧
    (rpcCallAux "getClassesList"
      (fun _ => .net (.reply ⟨some ⟨true, "err"⟩⟩ 0)) 2 0
      ⟨⟨0, 0, [], 0, 0⟩, some 0, 1, true, []⟩).1.nextSockId = 1 ∧
    (rpcCallAux "getClassesList"
      (fun _ => .net (.reply ⟨some ⟨true, "err"⟩⟩ 0)) 2 0
      ⟨⟨0, 0, [], 0, 0⟩, some 0, 1, true, []⟩).1.closedLinger0 = [] :=
  (rpcReplySuccessIff ⟨⟨0, 0, [], 0, 0⟩, some 0, 1, true, []⟩ "getClassesList"
      ⟨some ⟨true, "err"⟩⟩ 0 2 (fun _ => .net (.reply ⟨some ⟨true, "err"⟩⟩ 0)) 0
      ⟨⟨0, 0, [], 0, 0⟩, some 0, 1, true, []⟩).2.2 rfl
    (Or.inr ⟨⟨true, "err"⟩, rfl, rfl⟩)

/-- An attempt outcome that makes `send_receive` report failure: a poll
timeout, or a transport-level `zmq.ZMQError`. -/
def isFailOutcome : AttemptOutcome → Bool
  | .zmqErr => true
  | .net .timeout => true
  | .net (.reply _ _) => false

/-- Number of consecutive failing attempts in `outcomes` starting at
attempt `i`, counted up to `bound`. -/
def leadFailures (outcomes : Nat → AttemptOutcome) : Nat → Nat → Nat
  | _, 0 => 0
  | i, b + 1 => if isFailOutcome (outcomes i) then leadFailures outcomes (i + 1) b + 1 else 0

/-- When the current attempt's outcome is not a failure, the loop exits on
this attempt, leaving every socket-failure observable untouched and never
raising the connectivity error. -/
theorem rpcCallAuxNonFail (req : String) (outcomes : Nat → AttemptOutcome) (R i : Nat)
    (st : PoolState) (hnf : isFailOutcome (outcomes i) = false) :
    (rpcCallAux req outcomes R i st).1.slotInUse = false ∧
    (rpcCallAux req outcomes R i st).1.stats.socketErrors = st.stats.socketErrors ∧
    (rpcCallAux req outcomes R i st).1.closedLinger0 = st.closedLinger0 ∧
    errIsConnection (rpcCallAux req outcomes R i st).2 = false ∧
    (rpcCallAux req outcomes R i st).1.nextSockId = st.nextSockId ∧
    (rpcCallAux req outcomes R i st).1.slotSock = st.slotSock := by
  cases houtcome : outcomes i with
  | zmqErr => rw [houtcome] at hnf; simp [isFailOutcome] at hnf
  | net o =>
    cases o with
    | timeout => rw [houtcome] at hnf; simp [isFailOutcome] at hnf
    | reply rep dur =>
      obtain ⟨ores⟩ := rep
      cases ores with
      | none =>
        rcases R with _ | _ | n <;>
          simp [rpcCallAux, rpcAttempt, houtcome, sendReceive, releaseSlot, errIsConnection]
      | some res0 =>
        by_cases hE : res0.isErr = true
        · rcases R with _ | _ | n <;>
            simp [rpcCallAux, rpcAttempt, houtcome, sendReceive, hE, releaseSlot,
              errIsConnection]
        · simp only [Bool.not_eq_true] at hE
          rcases R with _ | _ | n <;>
            simp [rpcCallAux, rpcAttempt, houtcome, sendReceive, hE, releaseSlot,
              errIsConnection]

/-- A failing attempt (timeout or `ZMQError`) reduces to `(False, None)`
with only the per-method call counter bumped. -/
theorem rpcAttemptFail (req : String) (outcomes : Nat → AttemptOutcome) (i : Nat)
    (st : PoolState) (hf : isFailOutcome (outcomes i) = true) :
    rpcAttempt req outcomes i st =
      ({ st with stats := { st.stats with rpcCalls := bumpCall st.stats.rpcCalls req } },
        .ok none) := by
  cases houtcome : outcomes i with
  | zmqErr => simp [rpcAttempt, houtcome]
  | net o =>
    cases o with
    | timeout => simp [rpcAttempt, houtcome, sendReceive]
    | reply rep dur => rw [houtcome] at hf; simp [isFailOutcome] at hf

/-- With budget `0`, a failing attempt raises at once (after the penalty). -/
theorem rpcCallAuxFail0 (req : String) (outcomes : Nat → AttemptOutcome) (i : Nat)
    (st : PoolState) (hf : isFailOutcome (outcomes i) = true) :
    rpcCallAux req outcomes 0 i st =
      (releaseSlot (failPenalty
        { st with stats := { st.stats with rpcCalls := bumpCall st.stats.rpcCalls req } }),
        .error connAbandoned) := by
  rw [rpcCallAux, rpcAttemptFail req outcomes i st hf]

/-- With budget `1`, a failing attempt raises at once (after the penalty):
Python's decrement leaves `retries_left == 0 <= 0`. -/
theorem rpcCallAuxFail1 (req : String) (outcomes : Nat → AttemptOutcome) (i : Nat)
    (st : PoolState) (hf : isFailOutcome (outcomes i) = true) :
    rpcCallAux req outcomes 1 i st =
      (releaseSlot (failPenalty
        { st with stats := { st.stats with rpcCalls := bumpCall st.stats.rpcCalls req } }),
        .error connAbandoned) := by
  rw [rpcCallAux, rpcAttemptFail req outcomes i st hf]

/-- With budget `n + 2`, a failing attempt pays the penalty, recreates the
socket in the same slot, and retries with budget `n + 1`. -/
theorem rpcCallAuxFail2 (req : String) (outcomes : Nat → AttemptOutcome) (n i : Nat)
    (st : PoolState) (hf : isFailOutcome (outcomes i) = true) :
    rpcCallAux req outcomes (n + 2) i st =
      rpcCallAux req outcomes (n + 1) (i + 1) (initSocket (failPenalty
        { st with stats := { st.stats with rpcCalls := bumpCall st.stats.rpcCalls req } })) := by
  rw [rpcCallAux, rpcAttemptFail req outcomes i st hf]

/-- Claim C5: along a run of the retry loop started with budget `R` on a
slot holding a socket, with `cap = max R 1` failed attempts affordable
(Python decrements before the `<= 0` check) and
`c = leadFailures outcomes i cap` the failures actually consumed: every
consumed failure bumps the socket-error counter by one and closes one
socket with zero linger; the connectivity error `connAbandoned` is raised
exactly when the whole budget is consumed, with one fresh socket created
per retry (`cap - 1` of them); otherwise no connectivity error is raised,
one fresh socket was created per consumed failure, and the slot still
holds a socket.  The slot's in-use mark is cleared on every exit path. -/
theorem rpcCallRetryBudget (req : String) (outcomes : Nat → AttemptOutcome) (R i : Nat)
    (st : PoolState) (hsock : st.slotSock.isSome = true) :
    (rpcCallAux req outcomes R i st).1.slotInUse = false ∧
    (rpcCallAux req outcomes R i st).1.stats.socketErrors
        = st.stats.socketErrors + leadFailures outcomes i (max R 1) ∧
    (rpcCallAux req outcomes R i st).1.closedLinger0.length
        = st.closedLinger0.length + leadFailures outcomes i (max R 1) ∧
    (leadFailures outcomes i (max R 1) = max R 1 →
      (rpcCallAux req outcomes R i st).2 = .error connAbandoned ∧
      (rpcCallAux req outcomes R i st).1.nextSockId = st.nextSockId + (max R 1 - 1)) ∧
    (leadFailures outcomes i (max R 1) < max R 1 →
      errIsConnection (rpcCallAux req outcomes R i st).2 = false ∧
      (rpcCallAux req outcomes R i st).1.nextSockId
        = st.nextSockId + leadFailures outcomes i (max R 1) ∧
      (rpcCallAux req outcomes R i st).1.slotSock.isSome = true) := by
  induction R using Nat.strong_induction_on generalizing i st with
  | _ R ih =>
  rcases R with _ | _ | n
  · by_cases hf : isFailOutcome (outcomes i) = true
    · have hlf : leadFailures outcomes i (max 0 1) = 1 := by
        simp [leadFailures, hf]
      obtain ⟨sid, hsid⟩ := Option.isSome_iff_exists.mp hsock
      rw [rpcCallAuxFail0 req outcomes i st hf, hlf]
      refine ⟨rfl, ?_, ?_, ?_, ?_⟩
      · simp [releaseSlot, failPenalty, closeSocket, hsid]
      · simp [releaseSlot, failPenalty, closeSocket, hsid]
      · intro _
        refine ⟨rfl, ?_⟩
        simp [releaseSlot, failPenalty, closeSocket, hsid]
      · intro h
        simp at h
    · have hnf : isFailOutcome (outcomes i) = false := by
        simpa using hf
      have hlf : leadFailures outcomes i (max 0 1) = 0 := by
        simp [leadFailures, hnf]
      obtain ⟨h1, h2, h3, h4, h5, h6⟩ := rpcCallAuxNonFail req outcomes 0 i st hnf
      rw [hlf]
      refine ⟨h1, by rw [h2]; omega, by rw [h3]; omega, ?_, ?_⟩
      · intro h
        simp at h
      · intro _
        exact ⟨h4, by rw [h5]; omega, by rw [h6]; exact hsock⟩
  · by_cases hf : isFailOutcome (outcomes i) = true
    · have hlf : leadFailures outcomes i (max 1 1) = 1 := by
        simp [leadFailures, hf]
      obtain ⟨sid, hsid⟩ := Option.isSome_iff_exists.mp hsock
      rw [rpcCallAuxFail1 req outcomes i st hf, hlf]
      refine ⟨rfl, ?_, ?_, ?_, ?_⟩
      · simp [releaseSlot, failPenalty, closeSocket, hsid]
      · simp [releaseSlot, failPenalty, closeSocket, hsid]
      · intro _
        refine ⟨rfl, ?_⟩
        simp [releaseSlot, failPenalty, closeSocket, hsid]
      · intro h
        simp at h
    · have hnf : isFailOutcome (outcomes i) = false := by
        simpa using hf
      have hlf : leadFailures outcomes i (max 1 1) = 0 := by
        simp [leadFailures, hnf]
      obtain ⟨h1, h2, h3, h4, h5, h6⟩ := rpcCallAuxNonFail req outcomes 1 i st hnf
      rw [hlf]
      refine ⟨h1, by rw [h2]; omega, by rw [h3]; omega, ?_, ?_⟩
      · intro h
        simp at h
      · intro _
        exact ⟨h4, by rw [h5]; omega, by rw [h6]; exact hsock⟩
  · have hcap2 : max (n + 2) 1 = n + 2 := Nat.max_eq_left (by omega)
    have hcap1 : max (n + 1) 1 = n + 1 := Nat.max_eq_left (by omega)
    by_cases hf : isFailOutcome (outcomes i) = true
    · obtain ⟨sid, hsid⟩ := Option.isSome_iff_exists.mp hsock
      rw [rpcCallAuxFail2 req outcomes n i st hf]
      have hsockN : (initSocket (failPenalty
          { st with stats := { st.stats with
              rpcCalls := bumpCall st.stats.rpcCalls req } })).slotSock.isSome = true := by
        simp [initSocket]
      obtain ⟨g1, g2, g3, g4, g5⟩ := ih (n + 1) (by omega) (i + 1) _ hsockN
      have f2 : (initSocket (failPenalty
          { st with stats := { st.stats with
              rpcCalls := bumpCall st.stats.rpcCalls req } })).stats.socketErrors
            = st.stats.socketErrors + 1 := by
        simp [initSocket, failPenalty, closeSocket, hsid]
      have f3 : (initSocket (failPenalty
          { st with stats := { st.stats with
              rpcCalls := bumpCall st.stats.rpcCalls req } })).closedLinger0.length
            = st.closedLinger0.length + 1 := by
        simp [initSocket, failPenalty, closeSocket, hsid]
      have f4 : (initSocket (failPenalty
          { st with stats := { st.stats with
              rpcCalls := bumpCall st.stats.rpcCalls req } })).nextSockId
            = st.nextSockId + 1 := by
        simp [initSocket, failPenalty, closeSocket, hsid]
      have hlf : leadFailures outcomes i (n + 2)
          = leadFailures outcomes (i + 1) (n + 1) + 1 := by
        simp [leadFailures, hf]
      rw [hcap2, hlf]
      rw [hcap1] at g2 g3 g4 g5
      refine ⟨g1, ?_, ?_, ?_, ?_⟩
      · rw [g2, f2]; omega
      · rw [g3, f3]; omega
      · intro h
        have h2 : leadFailures outcomes (i + 1) (n + 1) = n + 1 := by omega
        obtain ⟨e1, e2⟩ := g4 h2
        refine ⟨e1, ?_⟩
        rw [e2, f4]; omega
      · intro h
        have h2 : leadFailures outcomes (i + 1) (n + 1) < n + 1 := by omega
        obtain ⟨e1, e2, e3⟩ := g5 h2
        refine ⟨e1, ?_, e3⟩
        rw [e2, f4]; omega
    · have hnf : isFailOutcome (outcomes i) = false := by
        simpa using hf
      have hlf : leadFailures outcomes i (max (n + 2) 1) = 0 := by
        rw [hcap2]; simp [leadFailures, hnf]
      obtain ⟨h1, h2, h3, h4, h5, h6⟩ := rpcCallAuxNonFail req outcomes (n + 2) i st hnf
      rw [hlf]
      refine ⟨h1, by rw [h2]; omega, by rw [h3]; omega, ?_, ?_⟩
      · intro h
        rw [hcap2] at h
        omega
      · intro _
        exact ⟨h4, by rw [h5]; omega, by rw [h6]; exact hsock⟩

/-- Witness for claim C5: budget `2`, first attempt times out, second
succeeds — one retry consumed, one socket closed with zero linger, one
fresh socket created, no connectivity error, slot released. -/
theorem rpcCallRetryBudgetWitness :
    (rpcCallAux "getClassesList"
      (fun j => if j = 0 then .net .timeout else .net (.reply ⟨some ⟨false, "ok"⟩⟩ 0)) 2 0
      ⟨⟨0, 0, [], 0, 0⟩, some 0, 1, true, []⟩).1.slotInUse = false ∧
    (rpcCallAux "getClassesList"
      (fun j => if j = 0 then .net .timeout else .net (.reply ⟨some ⟨false, "ok"⟩⟩ 0)) 2 0
      ⟨⟨0, 0, [], 0, 0⟩, some 0, 1, true, []⟩).1.stats.socketErrors = 0 + 1 ∧
    (rpcCallAux "getClassesList"
      (fun j => if j = 0 then .net .timeout else .net (.reply ⟨some ⟨false, "ok"⟩⟩ 0)) 2 0
      ⟨⟨0, 0, [], 0, 0⟩, some 0, 1, true, []⟩).1.closedLinger0.length
        = List.length ([] : List Nat) + 1 ∧
    errIsConnection (rpcCallAux "getClassesList"
      (fun j => if j = 0 then .net .timeout else .net (.reply ⟨some ⟨false, "ok"⟩⟩ 0)) 2 0
      ⟨⟨0, 0, [], 0, 0⟩, some 0, 1, true, []⟩).2 = false ∧
    (rpcCallAux "getClassesList"
      (fun j => if j = 0 then .net .timeout else .net (.reply ⟨some ⟨false, "ok"⟩⟩ 0)) 2 0
      ⟨⟨0, 0, [], 0, 0⟩, some 0, 1, true, []⟩).1.nextSockId = 1 + 1 ∧
    (rpcCallAux "getClassesList"
      (fun j => if j = 0 then .net .timeout else .net (.reply ⟨some ⟨false, "ok"⟩⟩ 0)) 2 0
      ⟨⟨0, 0, [], 0, 0⟩, some 0, 1, true, []⟩).1.slotSock.isSome = true := by
  have h := rpcCallRetryBudget "getClassesList"
    (fun j => if j = 0 then .net .timeout else .net (.reply ⟨some ⟨false, "ok"⟩⟩ 0)) 2 0
    ⟨⟨0, 0, [], 0, 0⟩, some 0, 1, true, []⟩ (by decide)
  have hlf : leadFailures
      (fun j => if j = 0 then .net .timeout else .net (.reply ⟨some ⟨false, "ok"⟩⟩ 0)) 0
      (max 2 1) = 1 := by decide
  obtain ⟨h1, h2, h3, _, h5⟩ := h
  rw [hlf] at h2 h3 h5
  obtain ⟨e1, e2, e3⟩ := h5 (by decide)
  exact ⟨h1, h2, h3, e1, e2, e3⟩

/-- The Bool adjacency check `tsStrict` agrees with `List.Pairwise` of the
strict timestamp order. -/
theorem tsStrictPairwise (s : Series) :
    tsStrict s = true ↔ s.Pairwise (fun a b => a.1 < b.1) := by
  induction s with
  | nil => simp [tsStrict]
  | cons a t ih =>
    cases t with
    | nil => simp [tsStrict]
    | cons b u =>
      rw [tsStrict, Bool.and_eq_true, decide_eq_true_eq, ih]
      constructor
      · rintro ⟨hab, hp⟩
        refine List.Pairwise.cons ?_ hp
        intro x hx
        rcases List.mem_cons.mp hx with hx | hx
        · rw [hx]; exact hab
        · exact hab.trans ((List.pairwise_cons.mp hp).1 x hx)
      · intro hp
        have h1 := List.pairwise_cons.mp hp
        exact ⟨h1.1 b (by simp), h1.2⟩

/-- Strict adjacency implies the non-strict `is_monotonic_increasing`. -/
theorem tsSortedOfStrict (s : Series) (h : tsStrict s = true) : tsSorted s = true := by
  induction s with
  | nil => rfl
  | cons a t ih =>
    cases t with
    | nil => rfl
    | cons b u =>
      rw [tsStrict, Bool.and_eq_true, decide_eq_true_eq] at h
      rw [tsSorted, Bool.and_eq_true, decide_eq_true_eq]
      exact ⟨le_of_lt h.1, ih h.2⟩

/-- Every row of `combine_first` comes from one of its operands. -/
theorem memMergeCF (n : Series) :
    ∀ (o : Series) (p : Nat × Candle), p ∈ mergeCF n o → p ∈ n ∨ p ∈ o := by
  induction n with
  | nil =>
    intro o p hp
    right
    simpa [mergeCF] using hp
  | cons a n ihn =>
    obtain ⟨t1, c1⟩ := a
    intro o
    induction o with
    | nil =>
      intro p hp
      left
      simpa [mergeCF] using hp
    | cons b o iho =>
      obtain ⟨t2, c2⟩ := b
      intro p hp
      by_cases h1 : t1 < t2
      · rw [mergeCF, if_pos h1] at hp
        rcases List.mem_cons.mp hp with hp | hp
        · exact Or.inl (by rw [hp]; simp)
        · rcases ihn ((t2, c2) :: o) p hp with hn | ho
          · exact Or.inl (List.mem_cons_of_mem _ hn)
          · exact Or.inr ho
      · by_cases h2 : t2 < t1
        · rw [mergeCF, if_neg h1, if_pos h2] at hp
          rcases List.mem_cons.mp hp with hp | hp
          · exact Or.inr (by rw [hp]; simp)
          · rcases iho p hp with hn | ho
            · exact Or.inl hn
            · exact Or.inr (List.mem_cons_of_mem _ ho)
        · rw [mergeCF, if_neg h1, if_neg h2] at hp
          rcases List.mem_cons.mp hp with hp | hp
          · exact Or.inl (by rw [hp]; simp)
          · rcases ihn o p hp with hn | ho
            · exact Or.inl (List.mem_cons_of_mem _ hn)
            · exact Or.inr (List.mem_cons_of_mem _ ho)

/-- `combine_first` of two strictly-increasing series is strictly
increasing. -/
theorem pairwiseMergeCF (n : Series) :
    ∀ o : Series, n.Pairwise (fun a b => a.1 < b.1) → o.Pairwise (fun a b => a.1 < b.1) →
      (mergeCF n o).Pairwise (fun a b => a.1 < b.1) := by
  induction n with
  | nil =>
    intro o _ ho
    simpa [mergeCF] using ho
  | cons a n ihn =>
    obtain ⟨t1, c1⟩ := a
    intro o
    induction o with
    | nil =>
      intro hn _
      simpa [mergeCF] using hn
    | cons b o iho =>
      obtain ⟨t2, c2⟩ := b
      intro hn ho
      have hn1 := List.pairwise_cons.mp hn
      have ho1 := List.pairwise_cons.mp ho
      by_cases h1 : t1 < t2
      · rw [mergeCF, if_pos h1]
        refine List.Pairwise.cons ?_ (ihn ((t2, c2) :: o) hn1.2 ho)
        intro p hp
        rcases memMergeCF n ((t2, c2) :: o) p hp with hpn | hpo
        · exact hn1.1 p hpn
        · rcases List.mem_cons.mp hpo with hpo | hpo
          · rw [hpo]; exact h1
          · exact h1.trans (ho1.1 p hpo)
      · by_cases h2 : t2 < t1
        · rw [mergeCF, if_neg h1, if_pos h2]
          refine List.Pairwise.cons ?_ (iho hn ho1.2)
          intro p hp
          rcases memMergeCF ((t1, c1) :: n) o p hp with hpn | hpo
          · rcases List.mem_cons.mp hpn with hpn | hpn
            · rw [hpn]; exact h2
            · exact h2.trans (hn1.1 p hpn)
          · exact ho1.1 p hpo
        · have heq : t1 = t2 := by omega
          rw [mergeCF, if_neg h1, if_neg h2]
          refine List.Pairwise.cons ?_ (ihn o hn1.2 ho1.2)
          intro p hp
          rcases memMergeCF n o p hp with hpn | hpo
          · exact hn1.1 p hpn
          · rw [heq]; exact ho1.1 p hpo

/-- A timestamp below every row's timestamp is absent from the series. -/
theorem tsLookupEqNone (s : Series) (t : Nat) (h : ∀ p ∈ s, p.1 ≠ t) :
    tsLookup t s = none := by
  induction s with
  | nil => rfl
  | cons a rest ih =>
    obtain ⟨u, c⟩ := a
    rw [tsLookup, if_neg (h (u, c) (by simp))]
    exact ih (fun p hp => h p (List.mem_cons_of_mem _ hp))

/-- Strict `orElse` on options (first operand wins when present). -/
def optOr {α : Type} : Option α → Option α → Option α
  | some x, _ => some x
  | none, b => b

/-- `optOr x none = x`. -/
theorem optOrNone {α : Type} (x : Option α) : optOr x none = x := by
  cases x <;> rfl

/-- Row lookup in `combine_first` of two strictly-increasing series: the
caller's row wins whenever present, the old row shows through otherwise. -/
theorem mergeCFLookup (n : Series) :
    ∀ o : Series, n.Pairwise (fun a b => a.1 < b.1) → o.Pairwise (fun a b => a.1 < b.1) →
      ∀ t, tsLookup t (mergeCF n o) = optOr (tsLookup t n) (tsLookup t o) := by
  induction n with
  | nil =>
    intro o _ _ t
    simp [mergeCF, tsLookup, optOr]
  | cons a n ihn =>
    obtain ⟨t1, c1⟩ := a
    intro o
    induction o with
    | nil =>
      intro _ _ t
      rw [mergeCF, show tsLookup t ([] : Series) = none from rfl, optOrNone]
    | cons b o iho =>
      obtain ⟨t2, c2⟩ := b
      intro hn ho t
      have hn1 := List.pairwise_cons.mp hn
      have ho1 := List.pairwise_cons.mp ho
      by_cases h1 : t1 < t2
      · rw [mergeCF, if_pos h1]
        by_cases ht : t1 = t
        · subst ht
          rw [show tsLookup t1 ((t1, c1) :: mergeCF n ((t2, c2) :: o)) = some c1 from by
              rw [tsLookup, if_pos rfl]]
          rw [show tsLookup t1 ((t1, c1) :: n) = some c1 from by rw [tsLookup, if_pos rfl]]
          rfl
        · rw [show tsLookup t ((t1, c1) :: mergeCF n ((t2, c2) :: o))
                = tsLookup t (mergeCF n ((t2, c2) :: o)) from by rw [tsLookup, if_neg ht]]
          rw [show tsLookup t ((t1, c1) :: n) = tsLookup t n from by rw [tsLookup, if_neg ht]]
          exact ihn ((t2, c2) :: o) hn1.2 ho t
      · by_cases h2 : t2 < t1
        · rw [mergeCF, if_neg h1, if_pos h2]
          by_cases ht : t2 = t
          · subst ht
            have hnone : tsLookup t2 ((t1, c1) :: n) = none := by
              refine tsLookupEqNone _ _ ?_
              intro p hp
              rcases List.mem_cons.mp hp with hp | hp
              · rw [hp]; show t1 ≠ t2; omega
              · have := hn1.1 p hp; omega
            rw [show tsLookup t2 ((t2, c2) :: mergeCF ((t1, c1) :: n) o) = some c2 from by
                rw [tsLookup, if_pos rfl]]
            rw [hnone]
            rw [show tsLookup t2 ((t2, c2) :: o) = some c2 from by rw [tsLookup, if_pos rfl]]
            rfl
          · rw [show tsLookup t ((t2, c2) :: mergeCF ((t1, c1) :: n) o)
                  = tsLookup t (mergeCF ((t1, c1) :: n) o) from by rw [tsLookup, if_neg ht]]
            rw [show tsLookup t ((t2, c2) :: o) = tsLookup t o from by rw [tsLookup, if_neg ht]]
            exact iho hn ho1.2 t
        · have heq : t1 = t2 := by omega
          subst heq
          rw [mergeCF, if_neg h1, if_neg h2]
          by_cases ht : t1 = t
          · subst ht
            rw [show tsLookup t1 ((t1, c1) :: mergeCF n o) = some c1 from by
                rw [tsLookup, if_pos rfl]]
            rw [show tsLookup t1 ((t1, c1) :: n) = some c1 from by rw [tsLookup, if_pos rfl]]
            rfl
          · rw [show tsLookup t ((t1, c1) :: mergeCF n o) = tsLookup t (mergeCF n o) from by
                rw [tsLookup, if_neg ht]]
            rw [show tsLookup t ((t1, c1) :: n) = tsLookup t n from by rw [tsLookup, if_neg ht]]
            rw [show tsLookup t ((t1, c2) :: o) = tsLookup t o from by rw [tsLookup, if_neg ht]]
            exact ihn o hn1.2 ho1.2 t

/-- Claim C6: for a batch with strictly monotonic ascending timestamps and
a stored series satisfying the strict-monotonicity invariant,
`process_history` succeeds; it adopts the batch when no prior data is
stored, otherwise every timestamp resolves to the new batch's row when the
batch has one and to the old row otherwise (the union of both, new rows
winning on collision); and the resulting stored series is again strictly
monotonic. -/
theorem historyProcessMerge (hc : HistoryCache) (quotes : Series) (now : Rat)
    (hq : tsStrict quotes = true) (hser : tsStrict hc.series = true) :
    ∃ hc2, processHistory hc quotes now = .ok hc2 ∧
      (hc.data = none → hc2.series = quotes) ∧
      (∀ old, hc.data = some old →
        ∀ t, tsLookup t hc2.series = optOr (tsLookup t quotes) (tsLookup t old)) ∧
      tsStrict hc2.series = true := by
  have hsorted : tsSorted quotes = true := tsSortedOfStrict quotes hq
  unfold processHistory
  rw [if_neg (by rw [hsorted]; simp)]
  cases hd : hc.data with
  | none =>
    cases hlast : quotes.getLast? with
    | none =>
      have hqnil : quotes = [] := by
        cases quotes with
        | nil => rfl
        | cons q qs => simp at hlast
      refine ⟨hc, rfl, ?_, ?_, ?_⟩
      · intro _
        rw [HistoryCache.series, hd, hqnil]
        rfl
      · intro old hold
        cases hold
      · exact hser
    | some lastRow =>
      refine ⟨_, rfl, ?_, ?_, ?_⟩
      · intro _
        simp [HistoryCache.series]
      · intro old hold
        cases hold
      · simpa [HistoryCache.series] using hq
  | some old =>
    have holdStrict : tsStrict old = true := by
      rw [HistoryCache.series, hd] at hser
      exact hser
    cases hlast : quotes.getLast? with
    | none =>
      have hqnil : quotes = [] := by
        cases quotes with
        | nil => rfl
        | cons q qs => simp at hlast
      refine ⟨hc, rfl, ?_, ?_, ?_⟩
      · intro hnone
        cases hnone
      · intro old2 hold2
        injection hold2 with hold2
        subst hold2
        intro t
        rw [HistoryCache.series, hd, hqnil]
        rfl
      · exact hser
    | some lastRow =>
      refine ⟨_, rfl, ?_, ?_, ?_⟩
      · intro hnone
        cases hnone
      · intro old2 hold2
        injection hold2 with hold2
        subst hold2
        intro t
        simp only [HistoryCache.series, Option.getD]
        exact mergeCFLookup quotes old ((tsStrictPairwise quotes).mp hq)
          ((tsStrictPairwise old).mp holdStrict) t
      · simp only [HistoryCache.series, Option.getD]
        rw [tsStrictPairwise]
        exact pairwiseMergeCF quotes old ((tsStrictPairwise quotes).mp hq)
          ((tsStrictPairwise old).mp holdStrict)

/-- Concrete history cache for the claim C6 witness: rows at times 1, 3. -/
def hcWitnessCache : HistoryCache :=
  { class_code := "SPBFUT", sec_code := "RIH1", interval := "INTERVAL_M1",
    data := some [(1, ⟨1, 1, 1, 1, 1⟩), (3, ⟨2, 2, 2, 2, 2⟩)], lastQuote := some 3,
    dsUuid := none, lastUpdate := some 0, cacheUpdateIntervalSec := 1 }

/-- Concrete incoming batch for the claim C6 witness: rows at times 2, 3. -/
def quotesWitnessBatch : Series :=
  [(2, ⟨5, 5, 5, 5, 5⟩), (3, ⟨6, 6, 6, 6, 6⟩)]

/-- Witness for claim C6: a cache holding rows at times 1 and 3, merged
with a batch holding rows at times 2 and 3. -/
theorem historyProcessMergeWitness :
    ∃ hc2, processHistory hcWitnessCache quotesWitnessBatch 9 = .ok hc2 ∧
      (hcWitnessCache.data = none → hc2.series = quotesWitnessBatch) ∧
      (∀ old, hcWitnessCache.data = some old →
        ∀ t, tsLookup t hc2.series = optOr (tsLookup t quotesWitnessBatch) (tsLookup t old)) ∧
      tsStrict hc2.series = true :=
  historyProcessMerge hcWitnessCache quotesWitnessBatch 9 (by decide) (by decide)
